import Mathlib

/-!
Verification of `scapy/arch/bpf/supersocket.py` (BPF supersockets).

The Python source is shallowly embedded below.  Byte strings are `List Nat`
(one entry per byte), multi-byte fields are read in little-endian order as
`struct.unpack` does on the little-endian BSD platforms this module targets,
and the platform branch `FREEBSD or NETBSD` is the boolean parameter `p`
(`true` = FreeBSD/NetBSD "wide timestamp" profile, `false` = the other
profile).  Python exceptions are explicit outcome values, and the decoder's
unbounded recursion is driven by an explicit fuel parameter: a result of
`none` means the recursion consumed all fuel, so termination statements are
statements about sufficient fuel.
-/

/-! ## `struct.unpack` on byte lists

`struct.unpack('I', s)` / `struct.unpack('H', s)` require the slice to hold
exactly 4 (resp. 2) bytes and otherwise raise `struct.error`; a failed parse
is `none` here.  Slices `buf[off:off+k]` are `(buf.drop off).take k`. -/

def unpackU32 (buf : List Nat) (off : Nat) : Option Nat :=
  match (buf.drop off).take 4 with
  | [b0, b1, b2, b3] => some (b0 + 256 * b1 + 65536 * b2 + 16777216 * b3)
  | _ => none

def unpackU16 (buf : List Nat) (off : Nat) : Option Nat :=
  match (buf.drop off).take 2 with
  | [b0, b1] => some (b0 + 256 * b1)
  | _ => none

/-! ## Frames and the decoding environment -/

/-- A decoded frame as stored in `received_frames`: the bytes handed to the
constructor, and whether construction fell back to `Raw` (`isRaw = true`)
or the guessed class succeeded (`isRaw = false`). -/
structure Frame where
  isRaw : Bool
  bytes : List Nat
deriving DecidableEq

/-- External collaborators of the decoder: whether `self.guessed_cls(frame_str)`
succeeds on a given byte string, and the global `conf.debug_dissector` flag. -/
structure DecodeEnv where
  clsOk : List Nat → Bool
  debug_dissector : Bool

/-! ## `L2bpfListenSocket.bpf_align` -/

/-- `bpf_align(bh_h, bh_c)` from the source: `BPF_ALIGNMENT` is 8 on
FreeBSD/NetBSD and 4 otherwise, and the result is Python's
`((x) + (BPF_ALIGNMENT - 1)) & ~(BPF_ALIGNMENT - 1)`.  For a power of two
`al` and a nonnegative `y`, Python's `y & ~(al - 1)` on unbounded ints equals
`y - y % al`, which is how the mask is expressed on `Nat`. -/
def bpf_align (p : Bool) (bh_h bh_c : Nat) : Nat :=
  let al := if p then 8 else 4
  let x := bh_h + bh_c
  (x + (al - 1)) - ((x + (al - 1)) % al)

/-! ## `L2bpfListenSocket.extract_frames`

One call of the Python body is `extract_step_fn`; the recursion
`self.extract_frames(bpf_buffer[end:])` becomes fuel-indexed iteration of the
step.  `ExOut` records how the call chain returned: normally, or by raising
`struct.error` from a short `unpack` slice, or by re-raising a dissection
failure when `conf.debug_dissector` is set. -/

inductive ExOut
  | ok
  | structError
  | dissectError
deriving DecidableEq

inductive StepRes
  | done : List Frame × ExOut → StepRes
  | next : List Nat → List Frame → StepRes
deriving DecidableEq

/-- The body of `extract_frames` acting on the buffer and the current
`received_frames` list, up to but not including the tail recursion. -/
def extract_step_fn (env : DecodeEnv) (p : Bool) (bpf_buffer : List Nat)
    (received : List Frame) : StepRes :=
  let len_bb := bpf_buffer.length
  if len_bb < 20 then StepRes.done (received, ExOut.ok)
  else
    let bh_tstamp_offset := if p then 16 else 8
    match unpackU32 bpf_buffer bh_tstamp_offset,
          unpackU32 bpf_buffer (bh_tstamp_offset + 4),
          unpackU16 bpf_buffer (bh_tstamp_offset + 8) with
    | some bh_caplen, some bh_datalen, some bh_hdrlen =>
      if bh_datalen = 0 then StepRes.done (received, ExOut.ok)
      else
        let frame_str := (bpf_buffer.drop bh_hdrlen).take bh_caplen
        match (if env.clsOk frame_str then some (Frame.mk false frame_str)
               else if env.debug_dissector then none
               else some (Frame.mk true frame_str)) with
        | none => StepRes.done (received, ExOut.dissectError)
        | some pkt =>
          let e := bpf_align p bh_hdrlen bh_caplen
          if 20 ≤ len_bb - e then StepRes.next (bpf_buffer.drop e) (received ++ [pkt])
          else StepRes.done (received ++ [pkt], ExOut.ok)
    | _, _, _ => StepRes.done (received, ExOut.structError)

/-- Fuel-indexed `extract_frames`: `none` means the recursion did not finish
within `fuel` calls. -/
def extract_frames (env : DecodeEnv) (p : Bool) :
    Nat → List Nat → List Frame → Option (List Frame × ExOut)
  | 0, _, _ => none
  | fuel + 1, bpf_buffer, received =>
    match extract_step_fn env p bpf_buffer received with
    | StepRes.done r => some r
    | StepRes.next b acc => extract_frames env p fuel b acc

/-- `extract_frames` started on an empty `received_frames` list with enough
fuel for any terminating execution (every productive step consumes at least
one byte, see the lemmas below). -/
def extractFramesTop (env : DecodeEnv) (p : Bool) (buf : List Nat) :
    Option (List Frame × ExOut) :=
  extract_frames env p (buf.length + 1) buf []

/-! ## Well-formed frame images

`FrameSpec` describes one kernel-written frame record: arbitrary bytes in the
timestamp area (`pre`), the three length fields, arbitrary header padding
after the fields, the captured payload, and the alignment padding that makes
consecutive records start `bpf_align` apart. -/

def le32enc (n : Nat) : List Nat :=
  [n % 256, n / 256 % 256, n / 65536 % 256, n / 16777216 % 256]

def le16enc (n : Nat) : List Nat :=
  [n % 256, n / 256 % 256]

structure FrameSpec where
  pre : List Nat
  datalen : Nat
  hdrPad : List Nat
  payload : List Nat
  alignPad : List Nat

/-- The value of the `bh_hdrlen` field of an encoded record: timestamp area,
the 4+4+2 bytes of length fields, then the in-header padding. -/
def FrameSpec.bhHdrlen (p : Bool) (fs : FrameSpec) : Nat :=
  (if p then 16 else 8) + 10 + fs.hdrPad.length

/-- The byte image of one frame record under profile `p`. -/
def encodeFrame (p : Bool) (fs : FrameSpec) : List Nat :=
  fs.pre ++ (le32enc fs.payload.length ++ (le32enc fs.datalen ++
    (le16enc (fs.bhHdrlen p) ++ (fs.hdrPad ++ (fs.payload ++ fs.alignPad)))))

/-- Well-formedness of a frame record: the timestamp area has the profile's
width, the on-wire length is nonzero and representable, the captured length
and header length are representable, and the trailing padding pads the record
to the aligned length computed by `bpf_align`. -/
def FrameSpec.WF (p : Bool) (fs : FrameSpec) : Prop :=
  fs.pre.length = (if p then 16 else 8) ∧
  fs.datalen ≠ 0 ∧
  fs.datalen < 4294967296 ∧
  fs.payload.length < 4294967296 ∧
  fs.bhHdrlen p < 65536 ∧
  fs.alignPad.length =
    bpf_align p (fs.bhHdrlen p) fs.payload.length - (fs.bhHdrlen p + fs.payload.length)

instance (p : Bool) (fs : FrameSpec) : Decidable (fs.WF p) := by
  unfold FrameSpec.WF; infer_instance

/-- A buffer holding the given frame records back-to-back. -/
def encodeAll (p : Bool) : List FrameSpec → List Nat
  | [] => []
  | fs :: rest => encodeFrame p fs ++ encodeAll p rest

/-- The `Frame` object the decoder stores for a well-formed record: the
captured payload, typed when `guessed_cls` succeeds on it and `Raw` otherwise. -/
def decodedFrame (env : DecodeEnv) (fs : FrameSpec) : Frame :=
  Frame.mk (!env.clsOk fs.payload) fs.payload

/-! ## Receive path: `get_frame`, `recv`, `nonblock_recv`

`SockKind` distinguishes the three concrete socket classes;
`pay` is the external packet framework's `.payload` accessor. -/

inductive SockKind
  | listen
  | l2
  | l3
deriving DecidableEq

/-- `L2bpfListenSocket.buffered_frames`. -/
def buffered_frames (received_frames : List Frame) : Nat :=
  received_frames.length

/-- `L2bpfListenSocket.get_frame`: pop the front of `received_frames` (or
return `None`), stripping the link-layer object via `.payload` exactly when
`self` is an `L3bpfSocket`.  Returns the popped value and the new list. -/
def get_frame (pay : Frame → Frame) (kind : SockKind) (q : List Frame) :
    Option Frame × List Frame :=
  match q with
  | [] => (none, [])
  | pkt :: rest =>
    (some (if kind = SockKind.l3 then pay pkt else pkt), rest)

/-- Outcome of one `os.read` on the BPF descriptor: data, `EAGAIN`, or some
other `EnvironmentError`. -/
inductive ReadResult
  | data : List Nat → ReadResult
  | eagain
  | err
deriving DecidableEq

/-- A receive either returns a value (`ret`) or lets an exception raised by
`extract_frames` propagate (`exn`). -/
inductive RecvOut
  | ret : Option Frame → RecvOut
  | exn
deriving DecidableEq

/-- `L2bpfListenSocket.recv`: drain the buffer first; otherwise do one read.
`EAGAIN` and other read errors both return `None`; on data, run
`extract_frames` over the buffer and pop the front frame.  The result pairs
the outcome with the final `received_frames` list; `none` models a
non-terminating extraction. -/
def recv (env : DecodeEnv) (p : Bool) (pay : Frame → Frame) (kind : SockKind)
    (rd : ReadResult) (q : List Frame) : Option (RecvOut × List Frame) :=
  if buffered_frames q ≠ 0 then
    let r := get_frame pay kind q
    some (RecvOut.ret r.1, r.2)
  else
    match rd with
    | ReadResult.eagain => some (RecvOut.ret none, q)
    | ReadResult.err => some (RecvOut.ret none, q)
    | ReadResult.data buf =>
      match extract_frames env p (buf.length + 1) buf q with
      | none => none
      | some (q2, ExOut.ok) =>
        let r := get_frame pay kind q2
        some (RecvOut.ret r.1, r.2)
      | some (q2, ExOut.structError) => some (RecvOut.exn, q2)
      | some (q2, ExOut.dissectError) => some (RecvOut.exn, q2)

/-- Descriptor blocking state: the real kernel flag word and the cached
`self.fd_flags` (`none` until first read via `F_GETFL`). -/
structure FdState where
  kernel_flags : Nat
  fd_flags : Option Nat
deriving DecidableEq

/-- `os.O_NONBLOCK` (bit 2 on the BSDs). -/
def O_NONBLOCK : Nat := 4

/-- `_L2bpfSocket.set_nonblock` with the two `fcntl` calls modelled as
succeeding: fill the cache from the kernel on first use, then set or clear
the `O_NONBLOCK` bit.  Python's `fd_flags & ~os.O_NONBLOCK` on unbounded
ints equals `fd_flags - (fd_flags &&& O_NONBLOCK)` for this single-bit mask. -/
def set_nonblock (set_flag : Bool) (st : FdState) : FdState :=
  let cached := st.fd_flags.getD st.kernel_flags
  let new_fd_flags :=
    if set_flag then cached ||| O_NONBLOCK
    else cached - (cached &&& O_NONBLOCK)
  { kernel_flags := new_fd_flags, fd_flags := some new_fd_flags }

/-- `L2bpfSocket.nonblock_recv`: pop from the buffer if possible; otherwise
set the non-blocking flag, call `L2bpfListenSocket.recv`, clear the flag and
return.  There is no `try/finally` in the source, so when `recv` raises the
flag-clearing call is skipped and the exception propagates with the
descriptor still non-blocking. -/
def nonblock_recv (env : DecodeEnv) (p : Bool) (pay : Frame → Frame)
    (kind : SockKind) (rd : ReadResult) (q : List Frame) (fd : FdState) :
    Option (RecvOut × List Frame × FdState) :=
  if buffered_frames q ≠ 0 then
    let r := get_frame pay kind q
    some (RecvOut.ret r.1, r.2, fd)
  else
    let fd1 := set_nonblock true fd
    match recv env p pay kind rd q with
    | none => none
    | some (RecvOut.exn, q2) => some (RecvOut.exn, q2, fd1)
    | some (RecvOut.ret pkt, q2) =>
      some (RecvOut.ret pkt, q2, set_nonblock false fd1)

/-! ## The class-attribute receive queue

In the source, `received_frames = []` is a class attribute of
`L2bpfListenSocket` (line 209).  No method ever rebinds it on an instance;
`extract_frames` calls `self.received_frames.append(pkt)` and `get_frame`
calls `self.received_frames.pop(0)`, both of which mutate the single list
object owned by the class.  Every instance therefore aliases the same queue,
which `PyWorld` models; instance-level operations take the instance id but
read and write the shared list. -/

structure PyWorld where
  received_frames : List Frame
deriving DecidableEq

/-- `some_instance.extract_frames(buf)`: appends into the class-level list,
whichever instance `self` is. -/
def extract_frames_obj (env : DecodeEnv) (p : Bool) (_self : Nat)
    (buf : List Nat) (w : PyWorld) : Option (PyWorld × ExOut) :=
  match extract_frames env p (buf.length + 1) buf w.received_frames with
  | none => none
  | some (q, out) => some (PyWorld.mk q, out)

/-- `some_instance.buffered_frames()`: the length of the class-level list. -/
def buffered_frames_obj (_self : Nat) (w : PyWorld) : Nat :=
  buffered_frames w.received_frames

/-- `some_instance.get_frame()`: pops the class-level list. -/
def get_frame_obj (pay : Frame → Frame) (kind : SockKind) (_self : Nat)
    (w : PyWorld) : Option Frame × PyWorld :=
  let r := get_frame pay kind w.received_frames
  (r.1, PyWorld.mk r.2)

/-! ## `L3bpfSocket.send` interface resolution -/

inductive PktFam
  | ipv6
  | ipv4
  | other
deriving DecidableEq

/-- The routing collaborators: `conf.route6.route`, `conf.route.route`
(returning `(iface, address, gateway)`) and the default `conf.iface`. -/
structure RouteEnv where
  route6 : String → String × String × String
  route4 : String → String × String × String
  iface : String

/-- The interface `L3bpfSocket.send` ends up using.  The source reads:

    if isinstance(pkt, IPv6):
        iff, a, gw = conf.route6.route(pkt.dst)
    if isinstance(pkt, IP):
        iff, a, gw = conf.route.route(pkt.dst)
    else:
        iff = conf.iface

The second test is `if`, not `elif`, so for every packet that is not an
`IP` instance — IPv6 packets included — the `else` branch runs last and
leaves `iff = conf.iface`, discarding the `route6` result computed by the
first statement. -/
def l3_resolved_iface (env : RouteEnv) (fam : PktFam) (dst : String) : String :=
  let iff_first :=
    if fam = PktFam.ipv6 then some (env.route6 dst).1 else none
  match iff_first with
  | _ =>
    if fam = PktFam.ipv4 then (env.route4 dst).1 else env.iface

/-- Interface-binding state of the socket plus a count of `BIOCSETIF`
rebind ioctls issued by `send`. -/
structure L3SendSt where
  assigned_interface : String
  rebind_count : Nat
deriving DecidableEq

/-- The interface-resolution and rebinding prefix of `L3bpfSocket.send`
(frame construction and the final write are external to this claim set):
rebind via `BIOCSETIF` exactly when the resolved interface differs from
`self.assigned_interface`. -/
def l3_send (env : RouteEnv) (fam : PktFam) (dst : String) (st : L3SendSt) :
    L3SendSt :=
  let iff := l3_resolved_iface env fam dst
  if st.assigned_interface ≠ iff then
    L3SendSt.mk iff (st.rebind_count + 1)
  else st

/-! ## `isBPFSocket` and `bpf_select` -/

/-- A descriptor handed to `bpf_select`: either one of the BPF supersockets
(with its buffered frame queue) or a plain file descriptor. -/
inductive FdItem
  | sock : SockKind → List Frame → Nat → FdItem
  | plain : Nat → FdItem
deriving DecidableEq

/-- `isinstance(obj, L2bpfListenSocket)`: true for all three socket classes,
since `L2bpfSocket` and `L3bpfSocket` derive from `L2bpfListenSocket`. -/
def isInstanceL2Listen : FdItem → Bool
  | FdItem.sock _ _ _ => true
  | FdItem.plain _ => false

/-- `isinstance(obj, L3bpfSocket)`. -/
def isInstanceL3 : FdItem → Bool
  | FdItem.sock k _ _ => k = SockKind.l3
  | FdItem.plain _ => false

/-- `isBPFSocket` as written in the source: the first class is tested twice
(a defect noted in the spec), which is harmless because all socket classes
are subclasses of the first. -/
def isBPFSocket (obj : FdItem) : Bool :=
  isInstanceL2Listen obj || isInstanceL2Listen obj || isInstanceL3 obj

/-- `tmp_fd.buffered_frames()` on a descriptor item. -/
def buffered_frames_fd : FdItem → Nat
  | FdItem.sock _ q _ => buffered_frames q
  | FdItem.plain _ => 0

/-- The test deciding whether a descriptor is taken from its buffer. -/
def bpf_pred (fd : FdItem) : Bool :=
  isBPFSocket fd && (buffered_frames_fd fd != 0)

/-- The `for` loop of `bpf_select`, splitting descriptors into
`(bpf_scks_buffered, select_fds)` in input order. -/
def splitFds : List FdItem → List FdItem × List FdItem
  | [] => ([], [])
  | tmp_fd :: rest =>
    let r := splitFds rest
    if isBPFSocket tmp_fd then
      if buffered_frames_fd tmp_fd != 0 then (tmp_fd :: r.1, r.2)
      else (r.1, tmp_fd :: r.2)
    else (r.1, tmp_fd :: r.2)

/-- `bpf_select(fds_list, timeout)`, with the blocking `select` call passed
in as `sel`.  Returns the ready list and the number of times `sel` was
invoked.  When descriptors remain for a real wait, a `None` timeout defaults
to 0.05. -/
def bpf_select (sel : List FdItem → ℚ → List FdItem) (fds_list : List FdItem)
    (timeout : Option ℚ) : List FdItem × Nat :=
  let r := splitFds fds_list
  if r.2.length ≠ 0 then
    (r.1 ++ sel r.2 (timeout.getD (0.05 : ℚ)), 1)
  else (r.1, 0)

/-! ## Concrete objects used by witnesses and counterexamples -/

/-- Decoding environment whose guessed class accepts every byte string, with
debug dissection off. -/
def env1 : DecodeEnv := DecodeEnv.mk (fun _ => true) false

/-- Decoding environment whose guessed class rejects every byte string, with
debug dissection on. -/
def env_dbg : DecodeEnv := DecodeEnv.mk (fun _ => false) true

/-- An identity `.payload` accessor for concrete examples. -/
def payId : Frame → Frame := id

/-- A 20-byte record under the narrow profile with `bh_caplen = 0`,
`bh_datalen = 1`, `bh_hdrlen = 0`: the aligned record length is 0, so the
source recurses on the unchanged buffer forever. -/
def loopBuf : List Nat :=
  [0, 0, 0, 0, 0, 0, 0, 0, 0, 0, 0, 0, 1, 0, 0, 0, 0, 0, 0, 0]

/-- Twenty zero bytes. -/
def zeros20 : List Nat := List.replicate 20 0

/-- A 20-byte record under the narrow profile: `bh_caplen = 2`,
`bh_datalen = 1`, `bh_hdrlen = 18`, payload `[170, 187]`. -/
def oneFrameBuf : List Nat :=
  [0, 0, 0, 0, 0, 0, 0, 0, 2, 0, 0, 0, 1, 0, 0, 0, 18, 0, 170, 187]

/-- The frame decoded from `oneFrameBuf` under `env1`. -/
def exFrame : Frame := Frame.mk false [170, 187]

/-- Well-formed narrow-profile record with payload `[170, 187]`. -/
def fsA : FrameSpec :=
  FrameSpec.mk [0, 0, 0, 0, 0, 0, 0, 0] 3 [] [170, 187] []

/-- Well-formed narrow-profile record with payload `[1, 2, 3, 4, 5, 6]`. -/
def fsB : FrameSpec :=
  FrameSpec.mk [0, 0, 0, 0, 0, 0, 0, 0] 9 [] [1, 2, 3, 4, 5, 6] []

/-- Well-formed wide-profile record with payload `[9]`: header length 26,
aligned record length 32, so 5 bytes of alignment padding. -/
def fsW : FrameSpec :=
  FrameSpec.mk (List.replicate 16 0) 1 [] [9] [0, 0, 0, 0, 0]

/-- Routing environment for the `L3bpfSocket.send` example: the IPv6 table
resolves `eth1`, the IPv4 table resolves `eth2`, the default interface is
`en0`. -/
def exRoute : RouteEnv :=
  RouteEnv.mk (fun _ => ("eth1", "", "")) (fun _ => ("eth2", "", "")) "en0"

/-! ## Helper lemmas -/

theorem le32enc_length (n : Nat) : (le32enc n).length = 4 := rfl

theorem le16enc_length (n : Nat) : (le16enc n).length = 2 := rfl

theorem extract_frames_succ (env : DecodeEnv) (p : Bool) (fuel : Nat)
    (buf : List Nat) (acc : List Frame) :
    extract_frames env p (fuel + 1) buf acc
      = match extract_step_fn env p buf acc with
        | StepRes.done r => some r
        | StepRes.next b a => extract_frames env p fuel b a := rfl

theorem extract_frames_mono (env : DecodeEnv) (p : Bool) :
    ∀ n m buf acc r, n ≤ m →
      extract_frames env p n buf acc = some r →
      extract_frames env p m buf acc = some r := by
  intro n
  induction n with
  | zero => intro m buf acc r _ h; cases h
  | succ k ih =>
    intro m buf acc r hnm h
    cases m with
    | zero => omega
    | succ m' =>
      rw [extract_frames_succ] at h ⊢
      cases hs : extract_step_fn env p buf acc with
      | done r2 => rw [hs] at h; exact h
      | next b a => rw [hs] at h; exact ih m' b a r (by omega) h

theorem unpackU32_prefix (l rest : List Nat) (n : Nat) (hn : n < 4294967296) :
    unpackU32 (l ++ (le32enc n ++ rest)) l.length = some n := by
  unfold unpackU32 le32enc
  rw [List.drop_left]
  simp only [List.cons_append, List.nil_append, List.take_succ_cons, List.take_zero]
  congr 1
  omega

theorem unpackU16_prefix (l rest : List Nat) (n : Nat) (hn : n < 65536) :
    unpackU16 (l ++ (le16enc n ++ rest)) l.length = some n := by
  unfold unpackU16 le16enc
  rw [List.drop_left]
  simp only [List.cons_append, List.nil_append, List.take_succ_cons, List.take_zero]
  congr 1
  omega

theorem le_bpf_align (p : Bool) (h c : Nat) : h + c ≤ bpf_align p h c := by
  cases p <;> simp [bpf_align] <;> omega

theorem twenty_le_bpf_align (p : Bool) (h c : Nat)
    (hh : (if p then 16 else 8) + 10 ≤ h) : 20 ≤ bpf_align p h c := by
  cases p <;> simp [bpf_align] <;> simp at hh <;> omega

theorem encodeFrame_length (p : Bool) (fs : FrameSpec) (hwf : fs.WF p) :
    (encodeFrame p fs).length = bpf_align p (fs.bhHdrlen p) fs.payload.length := by
  obtain ⟨h1, -, -, -, -, h6⟩ := hwf
  have hle := le_bpf_align p (fs.bhHdrlen p) fs.payload.length
  have hh : fs.bhHdrlen p = (if p then 16 else 8) + 10 + fs.hdrPad.length := rfl
  simp only [encodeFrame, List.length_append, le32enc_length, le16enc_length, h6, h1]
  omega

theorem twenty_le_encodeFrame (p : Bool) (fs : FrameSpec) (hwf : fs.WF p) :
    20 ≤ (encodeFrame p fs).length := by
  rw [encodeFrame_length p fs hwf]
  apply twenty_le_bpf_align
  simp only [FrameSpec.bhHdrlen]
  omega

theorem unpack_caplen (p : Bool) (fs : FrameSpec) (rest : List Nat) (hwf : fs.WF p) :
    unpackU32 (encodeFrame p fs ++ rest) (if p then 16 else 8)
      = some fs.payload.length := by
  obtain ⟨h1, -, -, h4, -, -⟩ := hwf
  have hd : encodeFrame p fs ++ rest
      = fs.pre ++ (le32enc fs.payload.length ++ (le32enc fs.datalen ++
        (le16enc (fs.bhHdrlen p) ++ (fs.hdrPad ++ (fs.payload ++ (fs.alignPad ++ rest)))))) := by
    simp [encodeFrame, List.append_assoc]
  rw [hd, ← h1]
  exact unpackU32_prefix _ _ _ h4

theorem unpack_datalen (p : Bool) (fs : FrameSpec) (rest : List Nat) (hwf : fs.WF p) :
    unpackU32 (encodeFrame p fs ++ rest) ((if p then 16 else 8) + 4)
      = some fs.datalen := by
  obtain ⟨h1, -, h3, -, -, -⟩ := hwf
  have hd : encodeFrame p fs ++ rest
      = (fs.pre ++ le32enc fs.payload.length) ++ (le32enc fs.datalen ++
        (le16enc (fs.bhHdrlen p) ++ (fs.hdrPad ++ (fs.payload ++ (fs.alignPad ++ rest))))) := by
    simp [encodeFrame, List.append_assoc]
  have hl : (fs.pre ++ le32enc fs.payload.length).length = (if p then 16 else 8) + 4 := by
    simp [le32enc_length, h1]
  rw [hd, ← hl]
  exact unpackU32_prefix _ _ _ h3

theorem unpack_hdrlen (p : Bool) (fs : FrameSpec) (rest : List Nat) (hwf : fs.WF p) :
    unpackU16 (encodeFrame p fs ++ rest) ((if p then 16 else 8) + 8)
      = some (fs.bhHdrlen p) := by
  obtain ⟨h1, -, -, -, h5, -⟩ := hwf
  have hd : encodeFrame p fs ++ rest
      = (fs.pre ++ (le32enc fs.payload.length ++ le32enc fs.datalen)) ++
        (le16enc (fs.bhHdrlen p) ++ (fs.hdrPad ++ (fs.payload ++ (fs.alignPad ++ rest)))) := by
    simp [encodeFrame, List.append_assoc]
  have hl : (fs.pre ++ (le32enc fs.payload.length ++ le32enc fs.datalen)).length
      = (if p then 16 else 8) + 8 := by
    simp [le32enc_length, h1]
  rw [hd, ← hl]
  exact unpackU16_prefix _ _ _ h5

theorem frame_str_encode (p : Bool) (fs : FrameSpec) (rest : List Nat) (hwf : fs.WF p) :
    ((encodeFrame p fs ++ rest).drop (fs.bhHdrlen p)).take fs.payload.length
      = fs.payload := by
  obtain ⟨h1, -, -, -, -, -⟩ := hwf
  have hd : encodeFrame p fs ++ rest
      = (fs.pre ++ (le32enc fs.payload.length ++ (le32enc fs.datalen ++
          (le16enc (fs.bhHdrlen p) ++ fs.hdrPad)))) ++ (fs.payload ++ (fs.alignPad ++ rest)) := by
    simp [encodeFrame, List.append_assoc]
  have hl : (fs.pre ++ (le32enc fs.payload.length ++ (le32enc fs.datalen ++
      (le16enc (fs.bhHdrlen p) ++ fs.hdrPad)))).length = fs.bhHdrlen p := by
    simp only [List.length_append, le32enc_length, le16enc_length, h1, FrameSpec.bhHdrlen]
    omega
  rw [hd, List.drop_left' hl, List.take_left]

theorem drop_encodeFrame (p : Bool) (fs : FrameSpec) (rest : List Nat) (hwf : fs.WF p) :
    (encodeFrame p fs ++ rest).drop (bpf_align p (fs.bhHdrlen p) fs.payload.length)
      = rest := by
  rw [← encodeFrame_length p fs hwf]
  exact List.drop_left _ _

theorem len_sub_encodeFrame (p : Bool) (fs : FrameSpec) (rest : List Nat) (hwf : fs.WF p) :
    (encodeFrame p fs ++ rest).length - bpf_align p (fs.bhHdrlen p) fs.payload.length
      = rest.length := by
  rw [List.length_append, ← encodeFrame_length p fs hwf]
  omega

theorem extract_step_encode (env : DecodeEnv) (p : Bool) (fs : FrameSpec)
    (rest : List Nat) (acc : List Frame) (hwf : fs.WF p)
    (hdec : env.debug_dissector = false ∨ env.clsOk fs.payload = true) :
    extract_step_fn env p (encodeFrame p fs ++ rest) acc =
      if 20 ≤ rest.length then StepRes.next rest (acc ++ [decodedFrame env fs])
      else StepRes.done (acc ++ [decodedFrame env fs], ExOut.ok) := by
  have h20 : ¬ (encodeFrame p fs ++ rest).length < 20 := by
    have := twenty_le_encodeFrame p fs hwf
    rw [List.length_append]; omega
  simp only [extract_step_fn]
  rw [if_neg h20]
  rw [unpack_caplen p fs rest hwf, unpack_datalen p fs rest hwf,
      unpack_hdrlen p fs rest hwf]
  simp only [if_neg hwf.2.1]
  rw [frame_str_encode p fs rest hwf]
  cases hc : env.clsOk fs.payload with
  | true =>
    simp only [if_pos rfl]
    rw [len_sub_encodeFrame p fs rest hwf, drop_encodeFrame p fs rest hwf]
    simp [decodedFrame, hc]
  | false =>
    have hdbg : env.debug_dissector = false := by
      rcases hdec with h | h
      · exact h
      · rw [hc] at h; cases h
    simp only [hdbg, Bool.false_eq_true, if_false]
    rw [len_sub_encodeFrame p fs rest hwf, drop_encodeFrame p fs rest hwf]
    simp [decodedFrame, hc]

theorem twenty_le_encodeAll (p : Bool) (fs : FrameSpec) (specs : List FrameSpec)
    (hwf : fs.WF p) : 20 ≤ (encodeAll p (fs :: specs)).length := by
  have := twenty_le_encodeFrame p fs hwf
  simp only [encodeAll, List.length_append]
  omega

theorem encodeAll_length (p : Bool) :
    ∀ specs : List FrameSpec, (∀ fs ∈ specs, fs.WF p) →
      20 * specs.length ≤ (encodeAll p specs).length := by
  intro specs
  induction specs with
  | nil => intro _; simp [encodeAll]
  | cons fs rest ih =>
    intro hwf
    have h1 := twenty_le_encodeFrame p fs (hwf fs (by simp))
    have h2 := ih (fun g hg => hwf g (by simp [hg]))
    simp only [encodeAll, List.length_append, List.length_cons]
    omega

theorem extract_frames_encodeAll (env : DecodeEnv) (p : Bool) :
    ∀ specs : List FrameSpec, (∀ fs ∈ specs, fs.WF p) →
      (∀ fs ∈ specs, env.debug_dissector = false ∨ env.clsOk fs.payload = true) →
      ∀ acc, extract_frames env p (specs.length + 1) (encodeAll p specs) acc
        = some (acc ++ specs.map (decodedFrame env), ExOut.ok) := by
  intro specs
  induction specs with
  | nil =>
    intro _ _ acc
    rw [extract_frames_succ]
    simp [extract_step_fn, encodeAll]
  | cons fs rest ih =>
    intro hwf hdec acc
    have hstep := extract_step_encode env p fs (encodeAll p rest) acc
      (hwf fs (by simp)) (hdec fs (by simp))
    rw [show encodeAll p (fs :: rest) = encodeFrame p fs ++ encodeAll p rest from rfl,
        show (fs :: rest).length + 1 = (rest.length + 1) + 1 from rfl,
        extract_frames_succ, hstep]
    cases rest with
    | nil =>
      rw [if_neg (by simp [encodeAll])]
      simp
    | cons fs2 rest2 =>
      rw [if_pos (twenty_le_encodeAll p fs2 rest2 (hwf fs2 (by simp)))]
      have := ih (fun g hg => hwf g (by simp [hg]))
        (fun g hg => hdec g (by simp [hg])) (acc ++ [decodedFrame env fs])
      simp only [List.length_cons] at this ⊢
      rw [this]
      simp

theorem step_no_dissect (env : DecodeEnv) (p : Bool)
    (hdbg : env.debug_dissector = false) (buf : List Nat) (acc fr : List Frame) :
    extract_step_fn env p buf acc ≠ StepRes.done (fr, ExOut.dissectError) := by
  simp only [extract_step_fn, hdbg]
  split
  · simp
  · split
    · split
      · simp
      · split
        · rename_i heq
          exfalso
          revert heq
          split <;> simp
        · split <;> simp
    · simp

theorem extract_no_dissect (env : DecodeEnv) (p : Bool)
    (hdbg : env.debug_dissector = false) :
    ∀ n buf acc fr, extract_frames env p n buf acc ≠ some (fr, ExOut.dissectError) := by
  intro n
  induction n with
  | zero => intro buf acc fr h; cases h
  | succ k ih =>
    intro buf acc fr h
    rw [extract_frames_succ] at h
    cases hs : extract_step_fn env p buf acc with
    | done r =>
      rw [hs] at h
      have hr := Option.some.inj h
      exact step_no_dissect env p hdbg buf acc fr (hr ▸ hs)
    | next b a =>
      rw [hs] at h
      exact ih b a fr h

theorem loopBuf_step (acc : List Frame) :
    extract_step_fn env1 false loopBuf acc
      = StepRes.next loopBuf (acc ++ [Frame.mk false []]) := rfl

theorem extract_frames_loopBuf :
    ∀ n acc, extract_frames env1 false n loopBuf acc = none := by
  intro n
  induction n with
  | zero => intro acc; rfl
  | succ k ih =>
    intro acc
    rw [extract_frames_succ, loopBuf_step]
    exact ih (acc ++ [Frame.mk false []])

theorem list_length_four (l : List Nat) (h : l.length = 4) :
    ∃ a b c d, l = [a, b, c, d] := by
  rcases l with - | ⟨a, - | ⟨b, - | ⟨c, - | ⟨d, rest⟩⟩⟩⟩ <;> simp_all

theorem list_length_two (l : List Nat) (h : l.length = 2) :
    ∃ a b, l = [a, b] := by
  rcases l with - | ⟨a, - | ⟨b, rest⟩⟩ <;> simp_all

theorem unpackU32_isSome (buf : List Nat) (off : Nat) (h : off + 4 ≤ buf.length) :
    ∃ v, unpackU32 buf off = some v := by
  have hlen : ((buf.drop off).take 4).length = 4 := by
    simp [List.length_take, List.length_drop]
    omega
  obtain ⟨a, b, c, d, hl⟩ := list_length_four _ hlen
  exact ⟨a + 256 * b + 65536 * c + 16777216 * d, by rw [unpackU32, hl]⟩

theorem unpackU16_isSome (buf : List Nat) (off : Nat) (h : off + 2 ≤ buf.length) :
    ∃ v, unpackU16 buf off = some v := by
  have hlen : ((buf.drop off).take 2).length = 2 := by
    simp [List.length_take, List.length_drop]
    omega
  obtain ⟨a, b, hl⟩ := list_length_two _ hlen
  exact ⟨a + 256 * b, by rw [unpackU16, hl]⟩

theorem and_four_eq (k : Nat) : k &&& 4 = (k.testBit 2).toNat * 4 := by
  have h := Nat.and_two_pow k 2
  norm_num at h
  exact h

theorem lor_four_eq (k : Nat) (h : k.testBit 2 = false) : k ||| 4 = k + 4 := by
  have hk : k / 4 % 2 = 0 := by
    rw [Nat.testBit_to_div_mod] at h
    norm_num at h
    omega
  apply Nat.eq_of_testBit_eq
  intro i
  rw [Nat.testBit_lor]
  match i with
  | 0 =>
    rw [show Nat.testBit 4 0 = false from rfl, Bool.or_false,
        Nat.testBit_to_div_mod, Nat.testBit_to_div_mod]
    exact decide_eq_decide.mpr (by simp; omega)
  | 1 =>
    rw [show Nat.testBit 4 1 = false from rfl, Bool.or_false,
        Nat.testBit_to_div_mod, Nat.testBit_to_div_mod]
    exact decide_eq_decide.mpr (by simp; omega)
  | 2 =>
    rw [show Nat.testBit 4 2 = true from rfl, Bool.or_true]
    symm
    rw [Nat.testBit_to_div_mod]
    exact decide_eq_true (by omega)
  | (j + 3) =>
    have h8 : 8 ≤ 2 ^ (j + 3) := by
      calc (8 : Nat) = 2 ^ 3 := by norm_num
      _ ≤ 2 ^ (j + 3) := Nat.pow_le_pow_right (by norm_num) (by omega)
    have h4 : Nat.testBit 4 (j + 3) = false := by
      rw [Nat.testBit_to_div_mod, Nat.div_eq_of_lt (by omega)]
      simp
    rw [h4, Bool.or_false, Nat.testBit_to_div_mod, Nat.testBit_to_div_mod]
    have hp : (2 : Nat) ^ (j + 3) = 8 * 2 ^ j := by
      rw [pow_add]
      ring
    rw [hp, ← Nat.div_div_eq_div_mul, ← Nat.div_div_eq_div_mul,
        show (k + 4) / 8 = k / 8 from by omega]

theorem set_nonblock_roundtrip (fd : FdState)
    (hcache : fd.fd_flags = none ∨ fd.fd_flags = some fd.kernel_flags)
    (hblock : fd.kernel_flags.testBit 2 = false) :
    set_nonblock false (set_nonblock true fd)
      = FdState.mk fd.kernel_flags (some fd.kernel_flags) := by
  have hone : set_nonblock true fd
      = FdState.mk (fd.kernel_flags ||| 4) (some (fd.kernel_flags ||| 4)) := by
    rcases hcache with h | h <;> simp [set_nonblock, h, O_NONBLOCK]
  rw [hone]
  have hbit : (fd.kernel_flags + 4).testBit 2 = true := by
    rw [Nat.testBit_to_div_mod] at hblock ⊢
    norm_num at hblock ⊢
    omega
  simp only [set_nonblock, O_NONBLOCK, Option.getD_some,
    lor_four_eq fd.kernel_flags hblock, and_four_eq, hbit]
  simp

theorem get_frame_listen (pay : Frame → Frame) (q : List Frame) :
    get_frame pay SockKind.listen q = (q.head?, q.tail) := by
  cases q <;> simp [get_frame]

theorem splitFds_eq_filter (l : List FdItem) :
    splitFds l = (l.filter bpf_pred, l.filter fun fd => !bpf_pred fd) := by
  induction l with
  | nil => rfl
  | cons fd rest ih =>
    simp only [splitFds, ih]
    cases hb : isBPFSocket fd <;> cases hq : buffered_frames_fd fd != 0 <;>
      simp [List.filter_cons, bpf_pred, hb, hq]

/-! ## Claim theorems -/

/-- Claim C1: for a buffer holding N well-formed frames back-to-back under
the active platform profile, `extract_frames` produces exactly those N frames
in arrival order; each frame's payload is the slice
`record[bh_hdrlen : bh_hdrlen + bh_caplen]` of its record, and each record's
byte length — the distance from its header to the next header — equals
`bpf_align(bh_hdrlen, bh_caplen)` with alignment 8 on FreeBSD/NetBSD and 4
otherwise.  (The environment must not re-raise a dissection failure on one of
the payloads: `debug_dissector` off, or the guessed class succeeding; the
debug mode is claim C7's subject.) -/
theorem extract_frames_wellformed_buffers (p : Bool) (env : DecodeEnv)
    (specs : List FrameSpec) (hwf : ∀ fs ∈ specs, fs.WF p)
    (hdec : ∀ fs ∈ specs, env.debug_dissector = false ∨ env.clsOk fs.payload = true) :
    extractFramesTop env p (encodeAll p specs)
        = some (specs.map (decodedFrame env), ExOut.ok)
    ∧ (∀ fs ∈ specs,
        ((encodeFrame p fs).drop (fs.bhHdrlen p)).take fs.payload.length = fs.payload)
    ∧ (∀ fs ∈ specs,
        (encodeFrame p fs).length = bpf_align p (fs.bhHdrlen p) fs.payload.length) := by
  refine ⟨?_, ?_, ?_⟩
  · have hbase := extract_frames_encodeAll env p specs hwf hdec []
    have hlen := encodeAll_length p specs hwf
    have hmono := extract_frames_mono env p (specs.length + 1)
      ((encodeAll p specs).length + 1) (encodeAll p specs) [] _ (by omega) hbase
    simpa [extractFramesTop] using hmono
  · intro fs hfs
    have h := frame_str_encode p fs [] (hwf fs hfs)
    simpa using h
  · intro fs hfs
    exact encodeFrame_length p fs (hwf fs hfs)

/-- Witness for C1: two concrete well-formed narrow-profile frames decode to
their two payloads in order. -/
theorem extract_frames_wellformed_buffers_witness :
    extractFramesTop env1 false (encodeAll false [fsA, fsB])
      = some ([fsA, fsB].map (decodedFrame env1), ExOut.ok) :=
  (extract_frames_wellformed_buffers false env1 [fsA, fsB]
    (by decide) (by decide)).1

/-- Claim C2 (code-bug evidence): `received_frames` is a mutable class
attribute of `L2bpfListenSocket`, so all instances share one queue: after
instance 0 decodes one frame from its read buffer, instance 1 observes
`buffered_frames() = 1` and instance 1's `get_frame()` returns the frame that
instance 0 decoded. -/
theorem received_frames_shared_across_instances :
    extract_frames_obj env1 false 0 oneFrameBuf (PyWorld.mk [])
        = some (PyWorld.mk [exFrame], ExOut.ok)
    ∧ buffered_frames_obj 1 (PyWorld.mk [exFrame]) = 1
    ∧ get_frame_obj payId SockKind.listen 1 (PyWorld.mk [exFrame])
        = (some exFrame, PyWorld.mk []) := by
  refine ⟨by decide, rfl, by decide⟩

/-- Claim C3 counterexample: with an empty queue, (a) when the underlying
receive raises (debug dissection on, undecodable frame), `nonblock_recv`
propagates the exception without clearing `O_NONBLOCK`, leaving a previously
blocking descriptor (flag word 0) non-blocking (flag word 4); (b) on a
successful call with a previously non-blocking descriptor (flag word 4), the
final flag-clearing step forces blocking mode (flag word 0) instead of
restoring the prior mode. -/
theorem nonblock_recv_mode_counterexample :
    nonblock_recv env_dbg false payId SockKind.l2 (ReadResult.data loopBuf) []
        (FdState.mk 0 none)
      = some (RecvOut.exn, [], FdState.mk 4 (some 4))
    ∧ nonblock_recv env_dbg false payId SockKind.l2 ReadResult.eagain []
        (FdState.mk 4 none)
      = some (RecvOut.ret none, [], FdState.mk 0 (some 0))
    ∧ Nat.testBit 4 2 ≠ Nat.testBit 0 2 := by
  refine ⟨by decide, by decide, by decide⟩

/-- Claim C3 (amended): with an empty queue, a descriptor whose flag cache is
unfilled or consistent, and a prior mode that is blocking, every
non-exceptional return of `nonblock_recv` leaves the flag word equal to its
prior value: the flag-clearing step runs on every normal exit (successful,
would-block, or failed read) and restores the prior blocking mode.  When the
underlying receive raises, the clearing step is skipped, and a prior
non-blocking mode is never restored (see the counterexample). -/
theorem nonblock_recv_restores_blocking (env : DecodeEnv) (p : Bool)
    (pay : Frame → Frame) (kind : SockKind) (rd : ReadResult) (fd : FdState)
    (hcache : fd.fd_flags = none ∨ fd.fd_flags = some fd.kernel_flags)
    (hblock : fd.kernel_flags.testBit 2 = false) :
    ∀ pkt q2 fd2,
      nonblock_recv env p pay kind rd [] fd = some (RecvOut.ret pkt, q2, fd2) →
      fd2.kernel_flags = fd.kernel_flags := by
  intro pkt q2 fd2 h
  unfold nonblock_recv at h
  rw [if_neg (by simp [buffered_frames])] at h
  cases hr : recv env p pay kind rd [] with
  | none => rw [hr] at h; cases h
  | some r =>
    rcases r with ⟨out, q3⟩
    cases out with
    | exn => rw [hr] at h; simp at h
    | ret pkt2 =>
      rw [hr] at h
      simp only [Option.some.injEq, Prod.mk.injEq] at h
      rw [← h.2.2, set_nonblock_roundtrip fd hcache hblock]

/-- Witness for the amended C3: a blocking descriptor with an unfilled cache
goes through a would-block `nonblock_recv` and ends with its original flag
word. -/
theorem nonblock_recv_restores_blocking_witness :
    (FdState.mk 0 (some 0)).kernel_flags = (FdState.mk 0 none).kernel_flags :=
  nonblock_recv_restores_blocking env1 false payId SockKind.l2 ReadResult.eagain
    (FdState.mk 0 none) (Or.inl rfl) (by decide) none [] (FdState.mk 0 (some 0))
    (by decide)

/-- Claim C4 (code-bug evidence): with the IPv6 table resolving `eth1`, the
default interface `en0`, and the socket bound to `en0`, sending an IPv6
packet resolves `en0` — the `route6` result `eth1` is discarded because the
second `isinstance` test is `if`, not `elif` — and issues zero rebinds.  IPv4
is unaffected: a first IPv4 send rebinds exactly once and a second send to
the same destination rebinds zero times. -/
theorem l3_send_ipv6_uses_default_iface :
    l3_resolved_iface exRoute PktFam.ipv6 "2001:db8::1" = "en0"
    ∧ (exRoute.route6 "2001:db8::1").1 = "eth1"
    ∧ l3_send exRoute PktFam.ipv6 "2001:db8::1" (L3SendSt.mk "en0" 0)
        = L3SendSt.mk "en0" 0
    ∧ l3_send exRoute PktFam.ipv4 "203.0.113.7" (L3SendSt.mk "en0" 0)
        = L3SendSt.mk "eth2" 1
    ∧ l3_send exRoute PktFam.ipv4 "203.0.113.7" (L3SendSt.mk "eth2" 1)
        = L3SendSt.mk "eth2" 1 := by
  refine ⟨by decide, by decide, by decide, by decide, by decide⟩

/-- Claim C5 counterexample: on `loopBuf` — a 20-byte header with
`bh_caplen = bh_hdrlen = 0` and nonzero `bh_datalen` — the aligned next
offset is 0 and `extract_frames` recurses on the identical buffer, so no
amount of fuel completes the recursion: the decoder does not terminate on
every input buffer. -/
theorem extract_frames_nonterminating :
    ¬ ∃ n r, extract_frames env1 false n loopBuf [] = some r := by
  rintro ⟨n, r, h⟩
  rw [extract_frames_loopBuf n []] at h
  cases h

/-- Claim C5 (amended): on buffers of well-formed back-to-back frames the
decoder terminates with recursion depth exactly the number N of frames (fuel
N + 1 suffices), and N is at most `bufferLength / 20`.  On arbitrary
malformed buffers the recursion need not terminate (see the
counterexample). -/
theorem extract_frames_depth_wellformed (p : Bool) (env : DecodeEnv)
    (specs : List FrameSpec) (hwf : ∀ fs ∈ specs, fs.WF p)
    (hdec : ∀ fs ∈ specs, env.debug_dissector = false ∨ env.clsOk fs.payload = true) :
    extract_frames env p (specs.length + 1) (encodeAll p specs) []
        = some (specs.map (decodedFrame env), ExOut.ok)
    ∧ specs.length ≤ (encodeAll p specs).length / 20 := by
  refine ⟨by simpa using extract_frames_encodeAll env p specs hwf hdec [], ?_⟩
  have := encodeAll_length p specs hwf
  omega

/-- Witness for the amended C5: one concrete wide-profile frame decodes with
fuel 2 and satisfies the `length / 20` bound. -/
theorem extract_frames_depth_wellformed_witness :
    extract_frames env1 true 2 (encodeAll true [fsW]) []
        = some ([fsW].map (decodedFrame env1), ExOut.ok)
    ∧ [fsW].length ≤ (encodeAll true [fsW]).length / 20 :=
  extract_frames_depth_wellformed true env1 [fsW] (by decide) (by decide)

/-- Claim C6 counterexample: under the wide-timestamp profile the length
fields sit at offsets 16..25, so on a 20-byte buffer (all zero bytes;
on-wire-length field 0 in its 20-byte-header reading) the decoder raises a
struct unpack error instead of returning zero frames without error. -/
theorem wide_profile_short_header_raises :
    extractFramesTop env1 true zeros20 = some ([], ExOut.structError)
    ∧ ExOut.structError ≠ ExOut.ok := by
  refine ⟨by decide, by decide⟩

/-- Claim C6 (amended): under both profiles every buffer shorter than 20
bytes decodes to zero frames without error.  The single-20-byte-header
early-stop case — on-wire-length field equal to 0, at offset 12 — yields zero
frames without error under the narrow-timestamp profile; under the
wide-timestamp profile a 20-byte buffer instead raises a struct unpack error
because the fields lie at offsets 16..25 (see the counterexample). -/
theorem short_buffer_and_zero_datalen (env : DecodeEnv) (p : Bool)
    (buf : List Nat) :
    (buf.length < 20 → extractFramesTop env p buf = some ([], ExOut.ok))
    ∧ (p = false → buf.length = 20 → unpackU32 buf 12 = some 0 →
        extractFramesTop env p buf = some ([], ExOut.ok)) := by
  constructor
  · intro h
    unfold extractFramesTop
    rw [extract_frames_succ]
    simp [extract_step_fn, h]
  · intro hp h20 hdl
    subst hp
    obtain ⟨c, hc⟩ := unpackU32_isSome buf 8 (by omega)
    obtain ⟨hdr, hh⟩ := unpackU16_isSome buf 16 (by omega)
    unfold extractFramesTop
    rw [extract_frames_succ]
    simp only [extract_step_fn, if_neg (show ¬ buf.length < 20 by omega)]
    norm_num
    rw [hc, hdl, hh]
    simp

/-- Witness for the amended C6: a 3-byte buffer and the all-zero 20-byte
buffer under the narrow profile both yield zero frames without error. -/
theorem short_buffer_and_zero_datalen_witness :
    extractFramesTop env1 false [1, 2, 3] = some ([], ExOut.ok)
    ∧ extractFramesTop env1 false zeros20 = some ([], ExOut.ok) :=
  ⟨(short_buffer_and_zero_datalen env1 false [1, 2, 3]).1 (by decide),
   (short_buffer_and_zero_datalen env1 false zeros20).2 rfl (by decide) (by decide)⟩

/-- Claim C7: when the guessed class fails on the current frame's payload
slice, with `debug_dissector` on the exception propagates out of
`extract_frames` and nothing is appended; with `debug_dissector` off the
decoder puts an opaque `Raw` frame holding that slice in its place and
continues, and no dissection exception can escape any `extract_frames` call
at all. -/
theorem decode_failure_fallback (env : DecodeEnv) (p : Bool) (n : Nat)
    (buf : List Nat) (acc : List Frame) (caplen datalen hdrlen : Nat)
    (h20 : ¬ buf.length < 20)
    (hc : unpackU32 buf (if p then 16 else 8) = some caplen)
    (hd : unpackU32 buf ((if p then 16 else 8) + 4) = some datalen)
    (hh : unpackU16 buf ((if p then 16 else 8) + 8) = some hdrlen)
    (hdz : datalen ≠ 0)
    (hfail : env.clsOk ((buf.drop hdrlen).take caplen) = false) :
    (env.debug_dissector = true →
      extract_frames env p (n + 1) buf acc = some (acc, ExOut.dissectError))
    ∧ (env.debug_dissector = false →
      extract_frames env p (n + 1) buf acc
        = (if 20 ≤ buf.length - bpf_align p hdrlen caplen
           then extract_frames env p n (buf.drop (bpf_align p hdrlen caplen))
                  (acc ++ [Frame.mk true ((buf.drop hdrlen).take caplen)])
           else some (acc ++ [Frame.mk true ((buf.drop hdrlen).take caplen)],
                      ExOut.ok)))
    ∧ (env.debug_dissector = false →
      ∀ m b a fr, extract_frames env p m b a ≠ some (fr, ExOut.dissectError)) := by
  refine ⟨?_, ?_, fun hdbg => extract_no_dissect env p hdbg⟩
  · intro hdbg
    rw [extract_frames_succ]
    simp only [extract_step_fn, if_neg h20, hc, hd, hh, if_neg hdz, hfail, hdbg]
    simp
  · intro hdbg
    rw [extract_frames_succ]
    simp only [extract_step_fn, if_neg h20, hc, hd, hh, if_neg hdz, hfail, hdbg]
    by_cases hcnd : 20 ≤ buf.length - bpf_align p hdrlen caplen <;> simp [hcnd]

/-- Witness for C7: `env_dbg` rejects the empty payload of `loopBuf`, so with
debug dissection on the exception escapes with nothing appended. -/
theorem decode_failure_fallback_witness :
    extract_frames env_dbg false 1 loopBuf [] = some ([], ExOut.dissectError) :=
  (decode_failure_fallback env_dbg false 0 loopBuf [] 0 1 0 (by decide) (by decide)
    (by decide) (by decide) (by decide) (by decide)).1 rfl

/-- Claim C8 counterexample: queue empty, one successful read returning 20
zero bytes under the wide-timestamp profile.  The claim requires `recv` to
return "no data" (zero frames were decoded); instead the decoder's struct
unpack error propagates out of `recv`. -/
theorem recv_decoder_error_counterexample :
    recv env1 true payId SockKind.listen (ReadResult.data zeros20) []
        = some (RecvOut.exn, [])
    ∧ RecvOut.exn ≠ RecvOut.ret none := by
  refine ⟨by decide, by decide⟩

/-- Claim C8 (amended): `recv` pops and returns the front frame with no
device read when the queue is non-empty (the result is the same for every
read outcome `rd`); with an empty queue, a would-block or failed read returns
"no data"; and with an empty queue, a successful read whose buffer the
decoder processes normally appends all decoded frames to the queue in order
and returns the front one (or "no data" when none were decoded).  When the
decoder raises instead, the exception propagates out of `recv` (see the
counterexample). -/
theorem recv_semantics (env : DecodeEnv) (p : Bool) (pay : Frame → Frame)
    (rd : ReadResult) (q : List Frame) :
    (∀ pkt rest, q = pkt :: rest →
      recv env p pay SockKind.listen rd q = some (RecvOut.ret (some pkt), rest))
    ∧ ((rd = ReadResult.eagain ∨ rd = ReadResult.err) →
      recv env p pay SockKind.listen rd [] = some (RecvOut.ret none, []))
    ∧ (∀ buf frames,
      extract_frames env p (buf.length + 1) buf [] = some (frames, ExOut.ok) →
      recv env p pay SockKind.listen (ReadResult.data buf) []
        = some (RecvOut.ret frames.head?, frames.tail)) := by
  refine ⟨?_, ?_, ?_⟩
  · rintro pkt rest rfl
    simp [recv, buffered_frames, get_frame]
  · rintro (rfl | rfl) <;> simp [recv, buffered_frames]
  · intro buf frames hex
    simp only [recv, buffered_frames, List.length_nil, ne_eq,
      not_true_eq_false, if_false]
    rw [hex]
    simp [get_frame_listen]

/-- Witness for the amended C8: popping a buffered frame, and a successful
read of a one-frame buffer returning that frame with the queue drained. -/
theorem recv_semantics_witness :
    recv env1 false payId SockKind.listen ReadResult.eagain [exFrame]
        = some (RecvOut.ret (some exFrame), [])
    ∧ recv env1 false payId SockKind.listen (ReadResult.data oneFrameBuf) []
        = some (RecvOut.ret (some exFrame), []) :=
  ⟨(recv_semantics env1 false payId ReadResult.eagain [exFrame]).1 exFrame [] rfl,
   by
    have h := (recv_semantics env1 false payId (ReadResult.data oneFrameBuf) []).2.2
      oneFrameBuf [exFrame] (by decide)
    simpa using h⟩

/-- Claim C9: `bpf_select` places every BPF socket with buffered frames
directly into the ready list (ahead of the wait results and never passed to
the wait primitive), invokes the wait primitive exactly once on the remaining
descriptors with the given timeout — 0.05 when unspecified — and does not
invoke it at all when no descriptor remains. -/
theorem bpf_select_semantics (sel : List FdItem → ℚ → List FdItem)
    (fds_list : List FdItem) (timeout : Option ℚ) :
    (fds_list.filter (fun fd => !bpf_pred fd) = [] →
      bpf_select sel fds_list timeout = (fds_list.filter bpf_pred, 0))
    ∧ (fds_list.filter (fun fd => !bpf_pred fd) ≠ [] →
      bpf_select sel fds_list timeout
        = (fds_list.filter bpf_pred
            ++ sel (fds_list.filter (fun fd => !bpf_pred fd))
                (timeout.getD (0.05 : ℚ)), 1))
    ∧ (∀ fd ∈ fds_list, bpf_pred fd = true →
        fd ∈ (bpf_select sel fds_list timeout).1) := by
  have hs := splitFds_eq_filter fds_list
  refine ⟨?_, ?_, ?_⟩
  · intro hemp
    simp [bpf_select, hs, hemp]
  · intro hne
    simp only [bpf_select, hs]
    rw [if_pos (by simpa [List.length_eq_zero] using hne)]
  · intro fd hfd hpred
    have hmem : fd ∈ fds_list.filter bpf_pred := List.mem_filter.mpr ⟨hfd, hpred⟩
    by_cases hemp : fds_list.filter (fun fd2 => !bpf_pred fd2) = []
    · simp only [bpf_select, hs]
      rw [if_neg (by simp [hemp])]
      exact hmem
    · simp only [bpf_select, hs]
      rw [if_pos (by simpa [List.length_eq_zero] using hemp)]
      exact List.mem_append_left _ hmem

/-- Witness for C9: a single buffered BPF socket is returned as ready with
the wait primitive invoked zero times. -/
theorem bpf_select_semantics_witness :
    bpf_select (fun l _ => l) [FdItem.sock SockKind.listen [exFrame] 0] none
      = ([FdItem.sock SockKind.listen [exFrame] 0], 0) :=
  ((bpf_select_semantics (fun l _ => l)
      [FdItem.sock SockKind.listen [exFrame] 0] none).1 (by decide)).trans
    (by decide)

/-- Claim C10: `get_frame` pops the front frame; on an `L3bpfSocket` it
returns the frame's `.payload` (the link-layer object stripped), while the
listen-only and transceiver variants return the link-layer frame unmodified;
in every case the queue loses its front element, and an empty queue yields
"no data". -/
theorem get_frame_l3_strips (pay : Frame → Frame) (pkt : Frame) (q : List Frame) :
    get_frame pay SockKind.l3 (pkt :: q) = (some (pay pkt), q)
    ∧ get_frame pay SockKind.listen (pkt :: q) = (some pkt, q)
    ∧ get_frame pay SockKind.l2 (pkt :: q) = (some pkt, q)
    ∧ get_frame pay SockKind.listen [] = (none, []) := by
  refine ⟨rfl, rfl, rfl, rfl⟩
